import Mathlib

/-!
Verification of the normalization / plan-building core of the
Trading_Dash_APP repository (src/trading_data_plot.py, src/dropbox_utils.py).

The Python code manipulates pandas DataFrames.  We shallowly embed a frame
as a list of column names, an index (row keys) and a list of rows, each row
a list of cell values aligned with the column names.  Cell values are the
scalar types that occur in the payloads: ints, strings, booleans, None,
float NaN, and timestamps (modelled as integers).  Styling constants of
the plotting library (colors, dash styles, sizes) are not modelled; the
multiplicative offsets such as 1.01 are carried as integer per-mille
factors so that no floating-point arithmetic enters the model.
-/

namespace TradingDash

/-- A scalar cell value of a DataFrame. `vTime` is a parsed timestamp
(an integer time key); `vNan` is the float NaN sentinel and `vNone` the
Python None, both of which pandas treats as missing. -/
inductive Value where
  | vInt : Int → Value
  | vStr : String → Value
  | vBool : Bool → Value
  | vNone : Value
  | vNan : Value
  | vTime : Int → Value
deriving DecidableEq, Repr

/-- Shallow embedding of a pandas DataFrame: column names, the row index,
and the rows (each aligned positionally with `cols`). -/
structure Frame where
  cols : List String
  idx : List Value
  rows : List (List Value)
deriving DecidableEq, Repr

/-- Python truthiness, as applied by `astype(bool)` on an object column:
zero numbers, empty strings, False and None are falsy; note that float
NaN is truthy in Python. -/
def pyTruthy : Value → Bool
  | .vInt n => n != 0
  | .vStr s => s != ""
  | .vBool b => b
  | .vNone => false
  | .vNan => true
  | .vTime _ => true

/-- Explicit false-like tokens (False, 0, empty string). -/
def falseLike : Value → Bool
  | .vInt n => n == 0
  | .vStr s => s == ""
  | .vBool b => !b
  | _ => false

/-- Index of the first column with the given name (the label lookup used
by `data[col]` / `data.columns`). -/
def findCol (cs : List String) (c : String) : Option Nat :=
  match cs with
  | [] => none
  | c0 :: rest => if c0 = c then some 0 else (findCol rest c).map (· + 1)

/-- The values of the named column (empty when the label is absent). -/
def getCol (f : Frame) (c : String) : List Value :=
  match findCol f.cols c with
  | some j => f.rows.filterMap (fun r => r[j]?)
  | none => []

/-- Model of `pd.to_datetime(v, errors="coerce")` on one cell: timestamps
and integers parse to their time key, numeral strings parse via `toInt?`
(a stand-in for the library date parser), everything else coerces to
missing (NaT). -/
def parseTs : Value → Option Int
  | .vTime t => some t
  | .vInt n => some n
  | .vStr s => s.toInt?
  | _ => none

/-- Insert one keyed row into a key-sorted list (ties go after existing
equal keys). -/
def insertKeyed (x : Int × List Value) : List (Int × List Value) → List (Int × List Value)
  | [] => [x]
  | y :: ys => if x.1 < y.1 then x :: y :: ys else y :: insertKeyed x ys

/-- Sort keyed rows ascending by key (models `sort_values("Date")`). -/
def sortKeyed : List (Int × List Value) → List (Int × List Value)
  | [] => []
  | x :: xs => insertKeyed x (sortKeyed xs)

/-- Remove every cell that sits under the "Date" label (the column is
moved to the index by `set_index`); positional, aligned with `cs`. -/
def dropDate (cs : List String) (r : List Value) : List Value :=
  (cs.zip r).filterMap (fun p => if p.1 = "Date" then none else some p.2)

/-- The timeline step of the normalizer (trading_data_plot.py lines
246-249): if a "Date" column exists, parse it, drop rows whose date did
not parse, sort ascending by date, and move the date into the index.
(On frames with a duplicated "Date" label pandas raises inside this
step; the total model removes every "Date" cell there.) -/
def timelinePass (f : Frame) : Frame :=
  match findCol f.cols "Date" with
  | none => f
  | some j =>
      let parsed := f.rows.filterMap (fun r =>
        match r[j]? with
        | some v => (parseTs v).map (fun t => (t, r))
        | none => none)
      let sorted := sortKeyed parsed
      { cols := f.cols.filter (fun c => c != "Date"),
        idx := sorted.map (fun p => Value.vTime p.1),
        rows := sorted.map (fun p => dropDate f.cols p.2) }

/-- The fixed boolean-signal registry of the normalizer
(trading_data_plot.py lines 255-256). -/
def registry : List String :=
  ["entry_buy_signal", "entry_buy_signal2", "trigger_sell_signal",
   "is_earnings_date", "is_earnings_warning"]

/-- Coerce one cell of a registry column with `astype(bool)` (Python
truthiness); other columns are untouched. -/
def coerceCell (c : String) (v : Value) : Value :=
  if c ∈ registry then .vBool (pyTruthy v) else v

/-- The boolean-coercion step of the normalizer (lines 254-258). -/
def boolPass (f : Frame) : Frame :=
  { f with rows := f.rows.map (fun r => List.zipWith coerceCell f.cols r) }

/-- The full normalizer: timeline step then boolean-signal coercion
(trading_data_plot.py lines 245-258, the SchemaNormalizer of the spec). -/
def normalize (f : Frame) : Frame :=
  boolPass (timelinePass f)

/-! ### Helper lemmas about column lookup -/

theorem findCol_eq_none (cs : List String) (c : String) :
    findCol cs c = none ↔ c ∉ cs := by
  induction cs with
  | nil => simp [findCol]
  | cons c0 rest ih =>
    by_cases h : c0 = c
    · simp [findCol, h]
    · simp [findCol, h, ih]
      intro hc
      exact fun he => h he.symm

theorem findCol_mem (cs : List String) (c : String) (h : c ∈ cs) :
    ∃ j, findCol cs c = some j := by
  cases hf : findCol cs c with
  | none => exact absurd ((findCol_eq_none cs c).mp hf) (by simp [h])
  | some j => exact ⟨j, rfl⟩

theorem findCol_get (cs : List String) (c : String) :
    ∀ j, findCol cs c = some j → cs[j]? = some c := by
  induction cs with
  | nil => intro j h; simp [findCol] at h
  | cons c0 rest ih =>
    intro j h
    by_cases h0 : c0 = c
    · simp [findCol, h0] at h
      subst h
      simp [h0]
    · simp [findCol, h0] at h
      obtain ⟨j0, hj0, hj⟩ := h
      subst hj
      simpa using ih j0 hj0

/-! ### Helper lemmas about the keyed insertion sort -/

theorem insertKeyed_mem (x : Int × List Value) :
    ∀ (l : List (Int × List Value)) (p : Int × List Value),
      p ∈ insertKeyed x l → p = x ∨ p ∈ l := by
  intro l
  induction l with
  | nil => intro p hp; simp [insertKeyed] at hp; exact Or.inl hp
  | cons y ys ih =>
    intro p hp
    by_cases hlt : x.1 < y.1
    · simp only [insertKeyed, if_pos hlt] at hp
      rcases List.mem_cons.mp hp with hp | hp
      · exact Or.inl hp
      · exact Or.inr hp
    · simp only [insertKeyed, if_neg hlt] at hp
      rcases List.mem_cons.mp hp with hp | hp
      · exact Or.inr (hp ▸ List.mem_cons_self y ys)
      · rcases ih p hp with hp2 | hp2
        · exact Or.inl hp2
        · exact Or.inr (List.mem_cons_of_mem y hp2)

theorem insertKeyed_sorted (x : Int × List Value) :
    ∀ (l : List (Int × List Value)),
      List.Sorted (· ≤ ·) (l.map Prod.fst) →
      List.Sorted (· ≤ ·) ((insertKeyed x l).map Prod.fst) := by
  intro l
  induction l with
  | nil => intro _; simp [insertKeyed]
  | cons y ys ih =>
    intro hs
    rw [List.map_cons, List.sorted_cons] at hs
    by_cases hlt : x.1 < y.1
    · simp only [insertKeyed, if_pos hlt, List.map_cons]
      rw [List.sorted_cons]
      constructor
      · intro b hb
        rcases List.mem_cons.mp hb with hb | hb
        · exact le_of_lt (hb ▸ hlt)
        · exact le_trans (le_of_lt hlt) (hs.1 b hb)
      · rw [List.sorted_cons]
        exact hs
    · simp only [insertKeyed, if_neg hlt, List.map_cons]
      rw [List.sorted_cons]
      constructor
      · intro b hb
        rcases List.mem_map.mp hb with ⟨p, hp, hpb⟩
        rcases insertKeyed_mem x ys p hp with hp2 | hp2
        · exact hpb ▸ hp2 ▸ le_of_not_lt hlt
        · exact hs.1 b (hpb ▸ List.mem_map_of_mem Prod.fst hp2)
      · exact ih hs.2

theorem sortKeyed_sorted (l : List (Int × List Value)) :
    List.Sorted (· ≤ ·) ((sortKeyed l).map Prod.fst) := by
  induction l with
  | nil => simp [sortKeyed]
  | cons x xs ih => exact insertKeyed_sorted x (sortKeyed xs) ih

/-! ### Helper lemmas about the boolean-coercion pass -/

theorem zipWith_coerce_get (c : String) :
    ∀ (j : Nat) (cs : List String) (r : List Value), cs[j]? = some c →
      (List.zipWith coerceCell cs r)[j]? = (r[j]?).map (coerceCell c) := by
  intro j
  induction j with
  | zero =>
    intro cs r hj
    cases cs with
    | nil => simp at hj
    | cons c0 cs' =>
      simp at hj
      cases r with
      | nil => simp
      | cons v r' => simp [hj]
  | succ j ih =>
    intro cs r hj
    cases cs with
    | nil => simp at hj
    | cons c0 cs' =>
      simp at hj
      cases r with
      | nil => simp
      | cons v r' => simpa using ih cs' r' hj

theorem filterMap_get_map (g : Value → Value) (j : Nat) :
    ∀ (rows : List (List Value)),
      rows.filterMap (fun r => (r[j]?).map g)
        = (rows.filterMap (fun r => r[j]?)).map g := by
  intro rows
  induction rows with
  | nil => simp
  | cons r rest ih =>
    rw [List.filterMap_cons, List.filterMap_cons]
    cases hr : r[j]? with
    | none => simp [ih]
    | some v => simp [ih]

theorem getCol_boolPass (g : Frame) (c : String) (hc : c ∈ registry) :
    getCol (boolPass g) c
      = (getCol g c).map (fun v => Value.vBool (pyTruthy v)) := by
  have hcols : (boolPass g).cols = g.cols := rfl
  unfold getCol
  rw [hcols]
  cases hf : findCol g.cols c with
  | none => simp
  | some j =>
    have hget := findCol_get g.cols c j hf
    show (g.rows.map (fun r => List.zipWith coerceCell g.cols r)).filterMap
        (fun r => r[j]?) = _
    rw [List.filterMap_map]
    have hcomp : ((fun r : List Value => r[j]?)
          ∘ fun r => List.zipWith coerceCell g.cols r)
        = fun r : List Value => (r[j]?).map (fun v => Value.vBool (pyTruthy v)) := by
      funext r
      show (List.zipWith coerceCell g.cols r)[j]? = _
      rw [zipWith_coerce_get c j g.cols r hget]
      have hcc : coerceCell c = fun v => Value.vBool (pyTruthy v) := by
        funext v
        simp [coerceCell, hc]
      rw [hcc]
    rw [hcomp]
    exact filterMap_get_map _ j g.rows

theorem coerceCell_idem (c : String) (v : Value) :
    coerceCell c (coerceCell c v) = coerceCell c v := by
  by_cases h : c ∈ registry <;> simp [coerceCell, h, pyTruthy]

theorem zipWith_coerce_idem :
    ∀ (cs : List String) (r : List Value),
      List.zipWith coerceCell cs (List.zipWith coerceCell cs r)
        = List.zipWith coerceCell cs r := by
  intro cs
  induction cs with
  | nil => intro r; simp
  | cons c0 cs' ih =>
    intro r
    cases r with
    | nil => simp
    | cons v r' => simp [coerceCell_idem, ih]

theorem boolPass_idem (g : Frame) : boolPass (boolPass g) = boolPass g := by
  unfold boolPass
  simp only [List.map_map]
  congr 1
  apply List.map_congr_left
  intro r _
  exact zipWith_coerce_idem g.cols r

theorem date_notin_timelinePass (f : Frame) :
    "Date" ∉ (timelinePass f).cols := by
  unfold timelinePass
  cases hf : findCol f.cols "Date" with
  | none => simpa using (findCol_eq_none f.cols "Date").mp hf
  | some j => simp

theorem timelinePass_of_notin (g : Frame) (h : "Date" ∉ g.cols) :
    timelinePass g = g := by
  unfold timelinePass
  rw [(findCol_eq_none g.cols "Date").mpr h]

theorem timelinePass_cols_subset (f : Frame) :
    ∀ c, c ∈ (timelinePass f).cols → c ∈ f.cols := by
  intro c
  unfold timelinePass
  cases hf : findCol f.cols "Date" with
  | none => exact id
  | some j =>
    intro hc
    exact (List.mem_filter.mp hc).1

/-! ### Observations on the index of a normalized frame -/

/-- Every index entry is a parsed timestamp. -/
def allVTime (l : List Value) : Bool :=
  l.all fun v => match v with | .vTime _ => true | _ => false

/-- The index is a non-decreasing chain of timestamps. -/
def idxChainLe : List Value → Bool
  | [] => true
  | [_] => true
  | .vTime a :: .vTime b :: rest => decide (a ≤ b) && idxChainLe (.vTime b :: rest)
  | _ => false

theorem allVTime_map (ts : List Int) :
    allVTime (ts.map Value.vTime) = true := by
  simp [allVTime]

theorem chainLe_map_vTime :
    ∀ ts : List Int, List.Sorted (· ≤ ·) ts →
      idxChainLe (ts.map Value.vTime) = true := by
  intro ts
  induction ts with
  | nil => intro _; rfl
  | cons a ts' ih =>
    intro hs
    cases ts' with
    | nil => rfl
    | cons b ts'' =>
      rw [List.sorted_cons] at hs
      have hab : a ≤ b := hs.1 b (List.mem_cons_self b ts'')
      have htail := ih hs.2
      simp only [List.map_cons] at htail ⊢
      simp [idxChainLe, hab, htail]

/-! ### Claim C3 (corrected) and C9, C6 -/

/-- A frame whose two rows carry the same date, used to exhibit that the
normalizer does not de-duplicate timestamps. -/
def dDupDates : Frame :=
  ⟨["Date"], [Value.vInt 0, Value.vInt 1], [[Value.vTime 5], [Value.vTime 5]]⟩

/-- C3 counterexample: the claim says the normalized temporal keys are
strictly increasing with no duplicates, but on a dataset with two rows
carrying the same date the normalizer keeps both rows, so the same
timestamp appears twice in the output index. -/
theorem normalize_duplicate_keys_cex :
    (normalize dDupDates).idx = [Value.vTime 5, Value.vTime 5]
    ∧ ¬ (normalize dDupDates).idx.Nodup := by
  constructor
  · rfl
  · decide

/-- C3 (amended): for every dataset with a "Date" column, the normalized
index consists of parsed timestamps in non-decreasing order; duplicates
are preserved, not removed, so the order is non-strict. -/
theorem normalize_idx_sorted (d : Frame) (h : "Date" ∈ d.cols) :
    allVTime (normalize d).idx = true ∧ idxChainLe (normalize d).idx = true := by
  obtain ⟨j, hj⟩ := findCol_mem d.cols "Date" h
  have hidx : (normalize d).idx
      = ((sortKeyed (d.rows.filterMap (fun r =>
          match r[j]? with
          | some v => (parseTs v).map (fun t => (t, r))
          | none => none))).map Prod.fst).map Value.vTime := by
    show (timelinePass d).idx = _
    unfold timelinePass
    rw [hj]
    simp [List.map_map]
  rw [hidx]
  exact ⟨allVTime_map _, chainLe_map_vTime _ (sortKeyed_sorted _)⟩

/-- Witness for the amended C3 theorem at a concrete dataset. -/
theorem normalize_idx_sorted_witness :
    allVTime (normalize dDupDates).idx = true
    ∧ idxChainLe (normalize dDupDates).idx = true :=
  normalize_idx_sorted dDupDates (by decide)

/-- C9: the normalizer is idempotent.  After the first pass the "Date"
column has been moved into the index, so the timeline step of the second
pass is the identity, and re-applying `astype(bool)` to an already
boolean column changes nothing. -/
theorem normalize_idempotent (f : Frame) :
    normalize (normalize f) = normalize f := by
  unfold normalize
  have h1 : timelinePass (boolPass (timelinePass f)) = boolPass (timelinePass f) := by
    apply timelinePass_of_notin
    show "Date" ∉ (timelinePass f).cols
    exact date_notin_timelinePass f
  rw [h1, boolPass_idem]

/-- A frame holding a float NaN in a registry column. -/
def dNanSignal : Frame :=
  ⟨["trigger_sell_signal"], [Value.vInt 0], [[Value.vNan]]⟩

/-- C6 counterexample: the claim says null values are not turned into
true, but `astype(bool)` applies Python truthiness and float NaN is
truthy, so a NaN cell of a registry column is coerced to True. -/
theorem nan_coerced_true_cex :
    getCol dNanSignal "trigger_sell_signal" = [Value.vNan]
    ∧ getCol (normalize dNanSignal) "trigger_sell_signal" = [Value.vBool true] := by
  constructor <;> rfl

/-- C6 (amended): the normalizer coerces every registry column present in
the dataset cell-wise with Python truthiness (None and explicit
false-like tokens become false, every other value — including the float
NaN null sentinel — becomes true), and never synthesizes a registry
column that was absent. -/
theorem registry_bool_coercion (d : Frame) (c c2 : String)
    (hreg : c ∈ registry) (_hmem : c ∈ d.cols) (hnot : c2 ∉ d.cols) :
    getCol (normalize d) c
        = (getCol (timelinePass d) c).map (fun v => Value.vBool (pyTruthy v))
    ∧ c2 ∉ (normalize d).cols
    ∧ (∀ v : Value, v ≠ Value.vNone → v ≠ Value.vNan →
        pyTruthy v = !(falseLike v))
    ∧ pyTruthy Value.vNone = false := by
  refine ⟨getCol_boolPass (timelinePass d) c hreg, ?_, ?_, rfl⟩
  · intro hc
    have hcols : (normalize d).cols = (timelinePass d).cols := rfl
    rw [hcols] at hc
    exact hnot (timelinePass_cols_subset d c2 hc)
  · intro v h1 h2
    cases v with
    | vInt n => simp [pyTruthy, falseLike, bne]
    | vStr s => simp [pyTruthy, falseLike, bne]
    | vBool b => simp [pyTruthy, falseLike]
    | vNone => exact absurd rfl h1
    | vNan => exact absurd rfl h2
    | vTime t => simp [pyTruthy, falseLike]

/-- Witness for the amended C6 theorem at a concrete dataset. -/
theorem registry_bool_coercion_witness :
    getCol (normalize dNanSignal) "trigger_sell_signal"
        = (getCol (timelinePass dNanSignal) "trigger_sell_signal").map
            (fun v => Value.vBool (pyTruthy v))
    ∧ "MA20" ∉ (normalize dNanSignal).cols :=
  ⟨(registry_bool_coercion dNanSignal "trigger_sell_signal" "MA20"
      (by decide) (by decide) (by decide)).1,
   (registry_bool_coercion dNanSignal "trigger_sell_signal" "MA20"
      (by decide) (by decide) (by decide)).2.1⟩

/-! ### The ChartPlanBuilder (the plot bodies of plot_selected_row,
trading_data_plot.py lines 274-502)

Each `data[...]` column access of the Python code either succeeds or
raises a KeyError naming the missing label; we model this as
`Except PErr` with `PErr.missingColumn`.  The accesses are sequenced in
the evaluation order of the Python source, so the first missing label
determines the error.  Trace styling constants (colors, widths) are not
modelled; the price offsets 1.01 / 1.02 / 0.995 / 1.005 are carried as
integer per-mille factors. -/

/-- Failure of a column access (`KeyError` of pandas). -/
inductive PErr where
  | missingColumn : String → PErr
deriving DecidableEq, Repr

/-- The two strategy presentation modes. -/
inductive Mode where
  | swing
  | positioning
deriving DecidableEq, Repr

/-- The kind of a renderable trace. -/
inductive TraceKind where
  | candlestick
  | line
  | marker
  | bar
  | textMarker
deriving DecidableEq, Repr

/-- One realized trace of the plan: name, kind, target subplot row,
x values, y value lists (four lists for a candlestick), the per-mille
price offset factor, marker text, and legend-only default visibility. -/
structure Trace where
  name : String
  kind : TraceKind
  row : Nat
  x : List Value
  ys : List (List Value)
  factorMilli : Int
  text : List String
  legendonly : Bool
deriving DecidableEq, Repr

/-- The assembled plan: the ordered traces plus the horizontal reference
lines added on the secondary panel. -/
structure PlotPlan where
  traces : List Trace
  refLines : List Int
deriving DecidableEq, Repr

/-- A column access that fails with a `KeyError` when the label is
absent. -/
def getColE (f : Frame) (c : String) : Except PErr (List Value) :=
  match findCol f.cols c with
  | some _ => .ok (getCol f c)
  | none => .error (.missingColumn c)

/-- Boolean mask of a signal column (`data[col]` used as a row mask). -/
def maskOf (d : Frame) (c : String) : List Bool :=
  (getCol d c).map pyTruthy

/-- Boolean-mask row selection (`data.index[mask]`, `series[mask]`). -/
def maskList (mask : List Bool) (xs : List Value) : List Value :=
  (mask.zip xs).filterMap (fun p => if p.1 then some p.2 else none)

/-- The earnings-date text+marker trace (both modes emit it whenever the
column is present; y is the masked High offset by 1.01). -/
def earnDateTrace (d : Frame) (hi : List Value) : Trace :=
  ⟨"Earnings", .textMarker, 1, maskList (maskOf d "is_earnings_date") d.idx,
   [maskList (maskOf d "is_earnings_date") hi], 1010,
   List.replicate ((maskOf d "is_earnings_date").count true) "E", false⟩

/-- The earnings-warning text+marker trace (offset 1.02). -/
def earnWarnTrace (d : Frame) (hi : List Value) : Trace :=
  ⟨"Earnings Ahead", .textMarker, 1,
   maskList (maskOf d "is_earnings_warning") d.idx,
   [maskList (maskOf d "is_earnings_warning") hi], 1020,
   List.replicate ((maskOf d "is_earnings_warning").count true) "⚠️", false⟩

/-- The swing-mode trace list (lines 275-399), in source order:
candlestick, MA lines, the six default-hidden dynamic stop-loss lines,
entry signals, trigger sell signal, CCI and its MA on row 2, the three
horizontal reference lines, then the earnings markers. -/
def swingTraces (d : Frame) (o hi lo cl : List Value) : PlotPlan :=
  { traces :=
      [⟨"Candlestick", .candlestick, 1, d.idx, [o, hi, lo, cl], 1000, [], false⟩]
      ++ (if "MA20" ∈ d.cols then
            [⟨"MA 20", .line, 1, d.idx, [getCol d "MA20"], 1000, [], false⟩] else [])
      ++ (if "MA40" ∈ d.cols then
            [⟨"MA 40", .line, 1, d.idx, [getCol d "MA40"], 1000, [], false⟩] else [])
      ++ (if "Dyn_SL_1x_Lower" ∈ d.cols then
            [⟨"SL 1x Lower", .line, 1, d.idx, [getCol d "Dyn_SL_1x_Lower"], 1000, [], true⟩] else [])
      ++ (if "Dyn_SL_2x_Lower" ∈ d.cols then
            [⟨"SL 2x Lower", .line, 1, d.idx, [getCol d "Dyn_SL_2x_Lower"], 1000, [], true⟩] else [])
      ++ (if "Dyn_SL_1x_Upper" ∈ d.cols then
            [⟨"SL 1x Upper", .line, 1, d.idx, [getCol d "Dyn_SL_1x_Upper"], 1000, [], true⟩] else [])
      ++ (if "Dyn_SL_2x_Upper" ∈ d.cols then
            [⟨"SL 2x Upper", .line, 1, d.idx, [getCol d "Dyn_SL_2x_Upper"], 1000, [], true⟩] else [])
      ++ (if "Dyn_Trail_SL_1x" ∈ d.cols then
            [⟨"Trailing SL 1x", .line, 1, d.idx, [getCol d "Dyn_Trail_SL_1x"], 1000, [], true⟩] else [])
      ++ (if "Dyn_Trail_SL_2x" ∈ d.cols then
            [⟨"Trailing SL 2x", .line, 1, d.idx, [getCol d "Dyn_Trail_SL_2x"], 1000, [], true⟩] else [])
      ++ (if "Entry_Buy_Price" ∈ d.cols ∧ "Entry_Buy_Signal" ∈ d.cols then
            [⟨"Entry_Buy_Signal", .marker, 1,
              maskList (maskOf d "Entry_Buy_Signal") d.idx,
              [maskList (maskOf d "Entry_Buy_Signal") (getCol d "Entry_Buy_Price")],
              1000, [], false⟩] else [])
      ++ (if "Entry_Buy_Price2" ∈ d.cols ∧ "Entry_Buy_Signal2" ∈ d.cols then
            [⟨"Entry_Buy_Signal2", .marker, 1,
              maskList (maskOf d "Entry_Buy_Signal2") d.idx,
              [maskList (maskOf d "Entry_Buy_Signal2") (getCol d "Entry_Buy_Price2")],
              1000, [], false⟩] else [])
      ++ (if "Trigger_Sell_Signal" ∈ d.cols ∧ "Trigger_Sell_Price" ∈ d.cols then
            [⟨"Trigger_Sell_Signal", .marker, 1,
              maskList (maskOf d "Trigger_Sell_Signal") d.idx,
              [maskList (maskOf d "Trigger_Sell_Signal") (getCol d "Trigger_Sell_Price")],
              1000, [], false⟩] else [])
      ++ (if "CCI" ∈ d.cols then
            [⟨"CCI (6)", .line, 2, d.idx, [getCol d "CCI"], 1000, [], false⟩] else [])
      ++ (if "CCI_MA" ∈ d.cols then
            [⟨"CCI MA (1)", .line, 2, d.idx, [getCol d "CCI_MA"], 1000, [], true⟩] else [])
      ++ (if "is_earnings_date" ∈ d.cols then [earnDateTrace d hi] else [])
      ++ (if "is_earnings_warning" ∈ d.cols then [earnWarnTrace d hi] else []),
    refLines := [100, 0, -100] }

/-- The positioning-mode trace list (lines 401-502), in source order:
the two signal-type-masked context candlesticks, SMA, the three signal
markers, the TIF bar on row 2, then the earnings markers. -/
def posTraces (d : Frame) (st o hi lo cl : List Value) : PlotPlan :=
  let buyMask := st.map (fun v => v == Value.vStr "buy")
  let sellMask := st.map (fun v => v == Value.vStr "sell")
  { traces :=
      [⟨"Buy Context", .candlestick, 1, maskList buyMask d.idx,
        [maskList buyMask o, maskList buyMask hi,
         maskList buyMask lo, maskList buyMask cl], 1000, [], false⟩]
      ++ [⟨"Sell Context", .candlestick, 1, maskList sellMask d.idx,
           [maskList sellMask o, maskList sellMask hi,
            maskList sellMask lo, maskList sellMask cl], 1000, [], false⟩]
      ++ (if "SMA" ∈ d.cols then
            [⟨"SMA 40", .line, 1, d.idx, [getCol d "SMA"], 1000, [], false⟩] else [])
      ++ (if "entry_buy_signal" ∈ d.cols then
            [⟨"Entry Buy Signal", .marker, 1,
              maskList (maskOf d "entry_buy_signal") d.idx,
              [maskList (maskOf d "entry_buy_signal") lo], 995, [], false⟩] else [])
      ++ (if "entry_buy_signal2" ∈ d.cols then
            [⟨"Entry Buy Signal 2", .marker, 1,
              maskList (maskOf d "entry_buy_signal2") d.idx,
              [maskList (maskOf d "entry_buy_signal2") lo], 995, [], false⟩] else [])
      ++ (if "trigger_sell_signal" ∈ d.cols then
            [⟨"Trigger Sell Signal", .marker, 1,
              maskList (maskOf d "trigger_sell_signal") d.idx,
              [maskList (maskOf d "trigger_sell_signal") hi], 1005, [], false⟩] else [])
      ++ (if "TIF" ∈ d.cols ∧ "TIF_color" ∈ d.cols then
            [⟨"TIF", .bar, 2, d.idx, [getCol d "TIF"], 1000, [], false⟩] else [])
      ++ (if "is_earnings_date" ∈ d.cols then [earnDateTrace d hi] else [])
      ++ (if "is_earnings_warning" ∈ d.cols then [earnWarnTrace d hi] else []),
    refLines := [] }

/-- The swing branch: the candlestick constructor touches Open, High,
Low, Close in that order, so the first absent price column raises. -/
def buildSwing (d : Frame) : Except PErr PlotPlan :=
  match getColE d "Open", getColE d "High", getColE d "Low", getColE d "Close" with
  | .ok o, .ok hi, .ok lo, .ok cl => .ok (swingTraces d o hi lo cl)
  | .error e, _, _, _ => .error e
  | _, .error e, _, _ => .error e
  | _, _, .error e, _ => .error e
  | _, _, _, .error e => .error e

/-- The positioning branch: the buy-context candlestick filters rows by
`data["signal_type"] == "buy"` before touching the price columns, so
"signal_type" is accessed first. -/
def buildPos (d : Frame) : Except PErr PlotPlan :=
  match getColE d "signal_type", getColE d "Open", getColE d "High",
        getColE d "Low", getColE d "Close" with
  | .ok st, .ok o, .ok hi, .ok lo, .ok cl => .ok (posTraces d st o hi lo cl)
  | .error e, _, _, _, _ => .error e
  | _, .error e, _, _, _ => .error e
  | _, _, .error e, _, _ => .error e
  | _, _, _, .error e, _ => .error e
  | _, _, _, _, .error e => .error e

/-- The ChartPlanBuilder: `build_plan(dataset, mode)` of the spec. -/
def build_plan (d : Frame) (m : Mode) : Except PErr PlotPlan :=
  match m with
  | .swing => buildSwing d
  | .positioning => buildPos d

/-- The four mandatory price columns. -/
def priceCols : List String := ["Open", "High", "Low", "Close"]

/-- Did plan building succeed? -/
def okPlan (r : Except PErr PlotPlan) : Bool :=
  match r with
  | .ok _ => true
  | .error _ => false

/-- Did plan building fail with a missing mandatory price column? -/
def failsOnPriceCol (r : Except PErr PlotPlan) : Bool :=
  match r with
  | .error (.missingColumn c) => decide (c ∈ priceCols)
  | _ => false

theorem getColE_of_mem (f : Frame) (c : String) (h : c ∈ f.cols) :
    getColE f c = .ok (getCol f c) := by
  obtain ⟨j, hj⟩ := findCol_mem f.cols c h
  unfold getColE
  rw [hj]

theorem getColE_of_not_mem (f : Frame) (c : String) (h : c ∉ f.cols) :
    getColE f c = .error (.missingColumn c) := by
  unfold getColE
  rw [(findCol_eq_none f.cols c).mpr h]

/-! ### Claim C1 (corrected) -/

/-- A dataset with exactly the four mandatory price columns and one row. -/
def dOHLC : Frame :=
  ⟨["Open", "High", "Low", "Close"], [Value.vInt 0],
   [[Value.vInt 1, Value.vInt 2, Value.vInt 1, Value.vInt 2]]⟩

/-- C1 counterexample: the claim says `build_plan` never raises on a
dataset holding the four mandatory price columns in either mode, but in
positioning mode the code unconditionally filters on the optional
categorical column "signal_type", so it fails with a missing-column
error that is not about a mandatory price column. -/
theorem build_plan_positioning_cex :
    build_plan dOHLC Mode.positioning
        = .error (.missingColumn "signal_type")
    ∧ "signal_type" ∉ priceCols := by
  constructor
  · rfl
  · decide

/-- C1 (amended): on a dataset with the four mandatory price columns,
swing-mode plan building always succeeds; positioning-mode plan building
succeeds exactly when the categorical column "signal_type" is also
present, and fails with the missing-column error for "signal_type"
otherwise.  On a dataset missing some mandatory price column, swing mode
fails with a missing-column error naming a mandatory price column, and
so does positioning mode provided "signal_type" is present. -/
theorem build_plan_required_columns (d d2 : Frame)
    (hO : "Open" ∈ d.cols) (hH : "High" ∈ d.cols)
    (hL : "Low" ∈ d.cols) (hC : "Close" ∈ d.cols)
    (hmiss : ¬ ("Open" ∈ d2.cols ∧ "High" ∈ d2.cols
        ∧ "Low" ∈ d2.cols ∧ "Close" ∈ d2.cols)) :
    okPlan (build_plan d Mode.swing) = true
    ∧ ("signal_type" ∈ d.cols → okPlan (build_plan d Mode.positioning) = true)
    ∧ ("signal_type" ∉ d.cols →
        build_plan d Mode.positioning = .error (.missingColumn "signal_type"))
    ∧ failsOnPriceCol (build_plan d2 Mode.swing) = true
    ∧ ("signal_type" ∈ d2.cols →
        failsOnPriceCol (build_plan d2 Mode.positioning) = true) := by
  refine ⟨?_, ?_, ?_, ?_, ?_⟩
  · simp [build_plan, buildSwing, getColE_of_mem d _ hO, getColE_of_mem d _ hH,
      getColE_of_mem d _ hL, getColE_of_mem d _ hC, okPlan]
  · intro hst
    simp [build_plan, buildPos, getColE_of_mem d _ hst, getColE_of_mem d _ hO,
      getColE_of_mem d _ hH, getColE_of_mem d _ hL, getColE_of_mem d _ hC, okPlan]
  · intro hst
    simp [build_plan, buildPos, getColE_of_not_mem d _ hst]
  · by_cases h1 : "Open" ∈ d2.cols
    · by_cases h2 : "High" ∈ d2.cols
      · by_cases h3 : "Low" ∈ d2.cols
        · by_cases h4 : "Close" ∈ d2.cols
          · exact absurd ⟨h1, h2, h3, h4⟩ hmiss
          · simp [build_plan, buildSwing, getColE_of_mem d2 _ h1,
              getColE_of_mem d2 _ h2, getColE_of_mem d2 _ h3,
              getColE_of_not_mem d2 _ h4, failsOnPriceCol, priceCols]
        · simp [build_plan, buildSwing, getColE_of_mem d2 _ h1,
            getColE_of_mem d2 _ h2, getColE_of_not_mem d2 _ h3,
            failsOnPriceCol, priceCols]
      · simp [build_plan, buildSwing, getColE_of_mem d2 _ h1,
          getColE_of_not_mem d2 _ h2, failsOnPriceCol, priceCols]
    · simp [build_plan, buildSwing, getColE_of_not_mem d2 _ h1,
        failsOnPriceCol, priceCols]
  · intro hst
    by_cases h1 : "Open" ∈ d2.cols
    · by_cases h2 : "High" ∈ d2.cols
      · by_cases h3 : "Low" ∈ d2.cols
        · by_cases h4 : "Close" ∈ d2.cols
          · exact absurd ⟨h1, h2, h3, h4⟩ hmiss
          · simp [build_plan, buildPos, getColE_of_mem d2 _ hst,
              getColE_of_mem d2 _ h1, getColE_of_mem d2 _ h2,
              getColE_of_mem d2 _ h3, getColE_of_not_mem d2 _ h4,
              failsOnPriceCol, priceCols]
        · simp [build_plan, buildPos, getColE_of_mem d2 _ hst,
            getColE_of_mem d2 _ h1, getColE_of_mem d2 _ h2,
            getColE_of_not_mem d2 _ h3, failsOnPriceCol, priceCols]
      · simp [build_plan, buildPos, getColE_of_mem d2 _ hst,
          getColE_of_mem d2 _ h1, getColE_of_not_mem d2 _ h2,
          failsOnPriceCol, priceCols]
    · simp [build_plan, buildPos, getColE_of_mem d2 _ hst,
        getColE_of_not_mem d2 _ h1, failsOnPriceCol, priceCols]

/-- A positioning dataset carrying signal_type together with the four
price columns. -/
def dFullPos : Frame :=
  ⟨["Open", "High", "Low", "Close", "signal_type"], [Value.vInt 0],
   [[Value.vInt 1, Value.vInt 2, Value.vInt 1, Value.vInt 2, Value.vStr "buy"]]⟩

/-- A dataset missing the "Close" price column. -/
def dNoClose : Frame :=
  ⟨["Open", "High", "Low", "signal_type"], [Value.vInt 0],
   [[Value.vInt 1, Value.vInt 2, Value.vInt 1, Value.vStr "buy"]]⟩

/-- Witness for the amended C1 theorem at concrete datasets. -/
theorem build_plan_required_columns_witness :
    okPlan (build_plan dFullPos Mode.swing) = true
    ∧ okPlan (build_plan dFullPos Mode.positioning) = true
    ∧ failsOnPriceCol (build_plan dNoClose Mode.swing) = true
    ∧ failsOnPriceCol (build_plan dNoClose Mode.positioning) = true :=
  ⟨(build_plan_required_columns dFullPos dNoClose (by decide) (by decide)
      (by decide) (by decide) (by decide)).1,
   (build_plan_required_columns dFullPos dNoClose (by decide) (by decide)
      (by decide) (by decide) (by decide)).2.1 (by decide),
   (build_plan_required_columns dFullPos dNoClose (by decide) (by decide)
      (by decide) (by decide) (by decide)).2.2.2.1,
   (build_plan_required_columns dFullPos dNoClose (by decide) (by decide)
      (by decide) (by decide) (by decide)).2.2.2.2 (by decide)⟩

/-! ### Claim C4 (corrected) -/

theorem maskList_map_allFalse (vs : List Value) :
    ∀ xs : List Value, vs.all (fun v => !pyTruthy v) = true →
      maskList (vs.map pyTruthy) xs = [] := by
  induction vs with
  | nil => intro xs _; cases xs <;> rfl
  | cons v vs' ih =>
    intro xs h
    simp only [List.all_cons, Bool.and_eq_true, Bool.not_eq_true'] at h
    cases xs with
    | nil => rfl
    | cons x xs' =>
      show (((pyTruthy v, x) :: (vs'.map pyTruthy).zip xs').filterMap
          (fun p => if p.1 then some p.2 else none)) = []
      rw [List.filterMap_cons]
      simp only [h.1, if_neg Bool.false_ne_true]
      have := ih xs' (by
        simp only [List.all_eq_true, Bool.not_eq_true'] at h ⊢
        exact h.2)
      simpa [maskList] using this

theorem getColE_ok_eq (f : Frame) (c : String) (vs : List Value)
    (h : getColE f c = .ok vs) : vs = getCol f c := by
  unfold getColE at h
  split at h
  · injection h with h
    exact h.symm
  · exact absurd h (by simp)

theorem swingTraces_filter_earnDate (d : Frame) (o hi lo cl : List Value) :
    (swingTraces d o hi lo cl).traces.filter (fun t => t.name == "Earnings")
      = if "is_earnings_date" ∈ d.cols then [earnDateTrace d hi] else [] := by
  unfold swingTraces
  by_cases hd : "is_earnings_date" ∈ d.cols <;>
    simp [List.filter_append,
      apply_ite (List.filter (fun t : Trace => t.name == "Earnings")),
      hd, earnDateTrace, earnWarnTrace]

theorem swingTraces_filter_earnWarn (d : Frame) (o hi lo cl : List Value) :
    (swingTraces d o hi lo cl).traces.filter (fun t => t.name == "Earnings Ahead")
      = if "is_earnings_warning" ∈ d.cols then [earnWarnTrace d hi] else [] := by
  unfold swingTraces
  by_cases hd : "is_earnings_warning" ∈ d.cols <;>
    simp [List.filter_append,
      apply_ite (List.filter (fun t : Trace => t.name == "Earnings Ahead")),
      hd, earnDateTrace, earnWarnTrace]

theorem posTraces_filter_earnDate (d : Frame) (st o hi lo cl : List Value) :
    (posTraces d st o hi lo cl).traces.filter (fun t => t.name == "Earnings")
      = if "is_earnings_date" ∈ d.cols then [earnDateTrace d hi] else [] := by
  unfold posTraces
  by_cases hd : "is_earnings_date" ∈ d.cols <;>
    simp [List.filter_append,
      apply_ite (List.filter (fun t : Trace => t.name == "Earnings")),
      hd, earnDateTrace, earnWarnTrace]

theorem posTraces_filter_earnWarn (d : Frame) (st o hi lo cl : List Value) :
    (posTraces d st o hi lo cl).traces.filter (fun t => t.name == "Earnings Ahead")
      = if "is_earnings_warning" ∈ d.cols then [earnWarnTrace d hi] else [] := by
  unfold posTraces
  by_cases hd : "is_earnings_warning" ∈ d.cols <;>
    simp [List.filter_append,
      apply_ite (List.filter (fun t : Trace => t.name == "Earnings Ahead")),
      hd, earnDateTrace, earnWarnTrace]

set_option maxHeartbeats 1000000 in
/-- C4 (amended): whenever plan building succeeds, the plan contains the
earnings-date (resp. earnings-warning) text+marker trace exactly when
the corresponding boolean column is present — regardless of whether any
of its values is true.  When the column holds no true value the emitted
trace merely has an empty point set. -/
theorem earnings_trace_presence (d : Frame) (m : Mode) (p : PlotPlan)
    (h : build_plan d m = .ok p) :
    (p.traces.filter (fun t => t.name == "Earnings")
        = if "is_earnings_date" ∈ d.cols
          then [earnDateTrace d (getCol d "High")] else [])
    ∧ (p.traces.filter (fun t => t.name == "Earnings Ahead")
        = if "is_earnings_warning" ∈ d.cols
          then [earnWarnTrace d (getCol d "High")] else [])
    ∧ ((getCol d "is_earnings_date").all (fun v => !pyTruthy v) = true →
        maskList (maskOf d "is_earnings_date") d.idx = [])
    ∧ ((getCol d "is_earnings_warning").all (fun v => !pyTruthy v) = true →
        maskList (maskOf d "is_earnings_warning") d.idx = []) := by
  refine ⟨?_, ?_, fun hf => maskList_map_allFalse _ _ hf,
    fun hf => maskList_map_allFalse _ _ hf⟩ <;>
  · cases m with
    | swing =>
      have h2 : buildSwing d = .ok p := h
      unfold buildSwing at h2
      split at h2
      next o hi lo cl hhO hhH hhL hhC =>
        injection h2 with h2
        have hhi := getColE_ok_eq d "High" hi hhH
        subst hhi
        rw [← h2]
        first
        | exact swingTraces_filter_earnDate d o (getCol d "High") lo cl
        | exact swingTraces_filter_earnWarn d o (getCol d "High") lo cl
      all_goals exact absurd h2 (by simp)
    | positioning =>
      have h2 : buildPos d = .ok p := h
      unfold buildPos at h2
      split at h2
      next st o hi lo cl hhS hhO hhH hhL hhC =>
        injection h2 with h2
        have hhi := getColE_ok_eq d "High" hi hhH
        subst hhi
        rw [← h2]
        first
        | exact posTraces_filter_earnDate d st o (getCol d "High") lo cl
        | exact posTraces_filter_earnWarn d st o (getCol d "High") lo cl
      all_goals exact absurd h2 (by simp)

/-- A dataset whose earnings-date column is present but all false. -/
def dEarnAllFalse : Frame :=
  ⟨["Open", "High", "Low", "Close", "is_earnings_date"], [Value.vInt 0],
   [[Value.vInt 1, Value.vInt 2, Value.vInt 1, Value.vInt 2, Value.vBool false]]⟩

/-- Does the result of plan building contain an earnings-date trace? -/
def hasEarningsTrace (r : Except PErr PlotPlan) : Bool :=
  match r with
  | .ok p => p.traces.any (fun t => t.name == "Earnings")
  | .error _ => false

instance : DecidableEq (Except PErr PlotPlan) := fun a b =>
  match a, b with
  | .ok x, .ok y =>
      if h : x = y then isTrue (by rw [h])
      else isFalse (fun hh => h (by injection hh))
  | .error x, .error y =>
      if h : x = y then isTrue (by rw [h])
      else isFalse (fun hh => h (by injection hh))
  | .ok _, .error _ => isFalse (by intro hh; exact Except.noConfusion hh)
  | .error _, .ok _ => isFalse (by intro hh; exact Except.noConfusion hh)

/-- C4 counterexample: the claim says that when "is_earnings_date" is
present but all false, no earnings marker trace is emitted; the code
emits the trace whenever the column is present, merely with an empty
point set. -/
theorem earnings_allfalse_cex :
    (getCol dEarnAllFalse "is_earnings_date").all (fun v => !pyTruthy v) = true
    ∧ hasEarningsTrace (build_plan dEarnAllFalse Mode.swing) = true := by
  constructor <;> decide

/-- The plan that swing-mode building produces on `dEarnAllFalse`. -/
def planEarnAllFalse : PlotPlan :=
  ⟨[⟨"Candlestick", .candlestick, 1, [Value.vInt 0],
     [[Value.vInt 1], [Value.vInt 2], [Value.vInt 1], [Value.vInt 2]],
     1000, [], false⟩,
    ⟨"Earnings", .textMarker, 1, [], [[]], 1010, [], false⟩],
   [100, 0, -100]⟩

/-- Witness for the amended C4 theorem at a concrete dataset. -/
theorem earnings_trace_presence_witness :
    (planEarnAllFalse.traces.filter (fun t => t.name == "Earnings")
        = if "is_earnings_date" ∈ dEarnAllFalse.cols
          then [earnDateTrace dEarnAllFalse (getCol dEarnAllFalse "High")] else [])
    ∧ maskList (maskOf dEarnAllFalse "is_earnings_date") dEarnAllFalse.idx = [] :=
  ⟨(earnings_trace_presence dEarnAllFalse Mode.swing planEarnAllFalse (by decide)).1,
   (earnings_trace_presence dEarnAllFalse Mode.swing planEarnAllFalse
      (by decide)).2.2.1 (by decide)⟩

/-! ### Python string primitives, modelled structurally over `List Char`
so that every use reduces inside the kernel.  `isPrefixList` is the
character-wise comparison used both by substring search (`in`) and by
`str.replace`. -/

def isPrefixList : List Char → List Char → Bool
  | [], _ => true
  | _ :: _, [] => false
  | a :: as, b :: bs => (a == b) && isPrefixList as bs

/-- Python `pat in s` substring containment. -/
def listContainsSub : List Char → List Char → Bool
  | [], pat => pat.isEmpty
  | c :: rest, pat => isPrefixList pat (c :: rest) || listContainsSub rest pat

/-- Python `pat in s` on strings. -/
def strContainsSub (s pat : String) : Bool :=
  listContainsSub s.toList pat.toList

/-- Python `s.endswith(t)`. -/
def strEndsWith (s t : String) : Bool :=
  decide (t.toList.length ≤ s.toList.length)
    && decide (s.toList.drop (s.toList.length - t.toList.length) = t.toList)

/-- Python `s.replace(pat, rep)` — replaces every non-overlapping
occurrence left to right; fuel-driven so that it reduces structurally
(the fuel is the string length, always sufficient for non-empty `pat`;
an empty `pat` leaves the string unchanged, a case never exercised). -/
def listReplaceAux : Nat → List Char → List Char → List Char → List Char
  | 0, l, _, _ => l
  | _ + 1, [], _, _ => []
  | n + 1, c :: rest, pat, rep =>
      if pat.isEmpty then c :: rest
      else if isPrefixList pat (c :: rest) then
        rep ++ listReplaceAux n ((c :: rest).drop pat.length) pat rep
      else c :: listReplaceAux n rest pat rep

/-- Python `s.replace(pat, rep)` on strings. -/
def pyReplace (s pat rep : String) : String :=
  ⟨listReplaceAux s.toList.length s.toList pat.toList rep.toList⟩

/-! ### The StrategyPlanner (plot_selected_row lines 260-271, 277-281,
403-407): subplot titles and relative panel heights. -/

/-- A panel layout: panel count, relative heights, panel titles, and the
shared-x-axis flag of `make_subplots`. -/
structure Layout where
  panels : Nat
  heights : List ℚ
  titles : List String
  sharedX : Bool
deriving DecidableEq, Repr

/-- The layout selection: `plot_mode` from the strategy type,
`timeframe_label` from the loaded file key, the two subplot titles, and
the per-mode row heights (0.7/0.3 for swing, 0.5/0.3 for positioning). -/
def plan_layout (strategy_type : String) (last_loaded_key : String)
    (ticker : String) : Layout :=
  let plot_mode := if strategy_type = "swing" then "Swing" else "Positioning"
  let timeframe_label :=
    if strContainsSub last_loaded_key "daily" then "Daily" else "Weekly"
  let titles :=
    if plot_mode = "Swing" then
      [timeframe_label ++ " " ++ plot_mode ++ " - " ++ ticker
         ++ ": Candlestick + MA(20/40) + Dynamic SLs",
       timeframe_label ++ " " ++ plot_mode ++ " - " ++ ticker
         ++ ": CCI (6) + MA(1)"]
    else
      [timeframe_label ++ " " ++ plot_mode ++ " - " ++ ticker
         ++ ": Candlestick Chart with Signals",
       timeframe_label ++ " " ++ plot_mode ++ " - " ++ ticker ++ ": TIF"]
  if strategy_type = "swing" then
    ⟨2, [(0.7 : ℚ), (0.3 : ℚ)], titles, true⟩
  else
    ⟨2, [(0.5 : ℚ), (0.3 : ℚ)], titles, true⟩

/-! ### Claim C7 (corrected) -/

/-- C7 counterexample: for the context {positioning, weekly, AAPL} the
claim says panel 0 is titled "Weekly Positioning – AAPL: Candlestick +
Signals" (en dash, "Candlestick + Signals").  The code produces
"Weekly Positioning - AAPL: Candlestick Chart with Signals" (plain
hyphen, "Candlestick Chart with Signals"), a different string. -/
theorem positioning_title_cex :
    (plan_layout "positioning" "load-weekly-positioning" "AAPL").titles[0]?
        = some "Weekly Positioning - AAPL: Candlestick Chart with Signals"
    ∧ "Weekly Positioning - AAPL: Candlestick Chart with Signals"
        ≠ "Weekly Positioning – AAPL: Candlestick + Signals" := by
  constructor
  · rfl
  · decide

/-- C7 (amended): for the context {positioning, weekly, AAPL} the layout
has two panels with heights 0.5/0.3 and the exact titles
"Weekly Positioning - AAPL: Candlestick Chart with Signals" and
"Weekly Positioning - AAPL: TIF" (plain hyphen separator). -/
theorem positioning_layout :
    plan_layout "positioning" "load-weekly-positioning" "AAPL"
      = ⟨2, [(0.5 : ℚ), (0.3 : ℚ)],
         ["Weekly Positioning - AAPL: Candlestick Chart with Signals",
          "Weekly Positioning - AAPL: TIF"], true⟩ := by
  rfl

/-! ### read_all_tickers_from_folder (dropbox_utils.py lines 82-101):
claim C10 (corrected) -/

/-- The key under which a ticker file is stored: the Python code does
`file_name.replace(".pkl", "")`, which deletes every occurrence of
".pkl", not only the final extension. -/
def tickerKey (fileName : String) : String :=
  pyReplace fileName ".pkl" ""

/-- Python dict assignment `d[k] = v`: overwrite in place when the key
exists, append otherwise. -/
def upsert (acc : List (String × Frame)) (k : String) (v : Frame) :
    List (String × Frame) :=
  if acc.any (fun q => q.1 == k) then
    acc.map (fun q => if q.1 == k then (k, v) else q)
  else acc ++ [(k, v)]

/-- The folder loop: for each listed file ending in ".pkl", try to load
its ticker pickle; store it under the stripped key on success, silently
skip it on failure. -/
def readAllAux : List String → (String → Option Frame) →
    List (String × Frame) → List (String × Frame)
  | [], _, acc => acc
  | fn :: rest, load, acc =>
      readAllAux rest load
        (if strEndsWith fn ".pkl" then
          match load (tickerKey fn) with
          | some df => upsert acc (tickerKey fn) df
          | none => acc
        else acc)

/-- `read_all_tickers_from_folder`, abstracted over the folder listing
and the per-ticker loader (a loader returning `none` models a raised
per-ticker exception, which the loop catches). -/
def read_all_tickers_from_folder (files : List String)
    (load : String → Option Frame) : List (String × Frame) :=
  readAllAux files load []

/-- Key membership in the accumulated dictionary. -/
def hasKey (l : List (String × Frame)) (k : String) : Bool :=
  l.any (fun q => q.1 == k)

theorem hasKey_upsert_iff (acc : List (String × Frame)) (k : String)
    (v : Frame) (k2 : String) :
    hasKey (upsert acc k v) k2 = true ↔ (hasKey acc k2 = true ∨ k2 = k) := by
  unfold upsert hasKey
  by_cases h : acc.any (fun q => q.1 == k) = true
  · rw [if_pos h]
    rw [List.any_map]
    simp only [List.any_eq_true, Function.comp] at h ⊢
    constructor
    · rintro ⟨q, hq, hq2⟩
      by_cases hqk : (q.1 == k) = true
      · rw [if_pos hqk] at hq2
        right
        exact (beq_iff_eq.mp hq2).symm
      · rw [if_neg (by simpa using hqk)] at hq2
        exact Or.inl ⟨q, hq, hq2⟩
    · rintro (⟨q, hq, hq2⟩ | hk)
      · by_cases hqk : (q.1 == k) = true
        · refine ⟨q, hq, ?_⟩
          rw [if_pos hqk]
          have h1 : q.1 = k := beq_iff_eq.mp hqk
          have h2 : q.1 = k2 := beq_iff_eq.mp hq2
          exact beq_iff_eq.mpr (h1 ▸ h2)
        · exact ⟨q, hq, by rw [if_neg (by simpa using hqk)]; exact hq2⟩
      · obtain ⟨q, hq, hqk⟩ := h
        refine ⟨q, hq, ?_⟩
        rw [if_pos hqk]
        exact beq_iff_eq.mpr hk.symm
  · rw [if_neg h]
    simp only [List.any_append, List.any_cons, List.any_nil, Bool.or_false,
      Bool.or_eq_true, List.any_eq_true]
    constructor
    · rintro (⟨q, hq, hq2⟩ | hk)
      · exact Or.inl ⟨q, hq, hq2⟩
      · exact Or.inr (beq_iff_eq.mp hk).symm
    · rintro (⟨q, hq, hq2⟩ | hk)
      · exact Or.inl ⟨q, hq, hq2⟩
      · exact Or.inr (beq_iff_eq.mpr hk.symm)

theorem readAllAux_keys (load : String → Option Frame) (k : String) :
    ∀ (files : List String) (acc : List (String × Frame)),
      hasKey (readAllAux files load acc) k = true ↔
        (hasKey acc k = true
          ∨ files.any (fun fn => strEndsWith fn ".pkl" && (tickerKey fn == k)
              && (load (tickerKey fn)).isSome) = true) := by
  intro files
  induction files with
  | nil =>
    intro acc
    simp [readAllAux]
  | cons fn rest ih =>
    intro acc
    show hasKey (readAllAux rest load _) k = true ↔ _
    rw [ih]
    simp only [List.any_cons, Bool.or_eq_true]
    by_cases hend : strEndsWith fn ".pkl" = true
    · cases hload : load (tickerKey fn) with
      | none =>
        rw [if_pos hend]
        simp
      | some df =>
        rw [if_pos hend]
        have hred : (match some df with
            | some df => upsert acc (tickerKey fn) df
            | none => acc) = upsert acc (tickerKey fn) df := rfl
        rw [hred, hasKey_upsert_iff]
        constructor
        · rintro ((hacc | hk) | hrest)
          · exact Or.inl hacc
          · exact Or.inr (Or.inl (by simp [hend, hload, beq_iff_eq, hk]))
          · exact Or.inr (Or.inr hrest)
        · rintro (hacc | (hfn | hrest))
          · exact Or.inl (Or.inl hacc)
          · refine Or.inl (Or.inr ?_)
            simp only [Bool.and_eq_true, beq_iff_eq] at hfn
            exact hfn.1.2.symm
          · exact Or.inr hrest
    · rw [if_neg hend]
      constructor
      · rintro (hacc | hrest)
        · exact Or.inl hacc
        · exact Or.inr (Or.inr hrest)
      · rintro (hacc | (hfn | hrest))
        · exact Or.inl hacc
        · exact absurd (by simp only [Bool.and_eq_true] at hfn; exact hfn.1.1) hend
        · exact Or.inr hrest

/-- C10 (amended): the keys of the returned dictionary are exactly the
names obtained by deleting every occurrence of ".pkl" from a listed
file name (equal to the file stem only when ".pkl" occurs solely as the
final extension), restricted to files ending in ".pkl" whose individual
load succeeded; a per-ticker load failure is silently omitted and never
propagates out of the loop. -/
theorem read_all_tickers_keys (files : List String)
    (load : String → Option Frame) (k : String) :
    hasKey (read_all_tickers_from_folder files load) k = true ↔
      files.any (fun fn => strEndsWith fn ".pkl" && (tickerKey fn == k)
          && (load (tickerKey fn)).isSome) = true := by
  unfold read_all_tickers_from_folder
  rw [readAllAux_keys]
  simp [hasKey]

/-- A loader that succeeds for every ticker. -/
def loadAlways : String → Option Frame := fun _ => some ⟨[], [], []⟩

/-- C10 counterexample: for the listed file "AAPL.pkl.pkl" the claim
says the key is the file stem "AAPL.pkl"; the code deletes every
".pkl" occurrence and stores the ticker under "AAPL" instead. -/
theorem read_all_tickers_stem_cex :
    read_all_tickers_from_folder ["AAPL.pkl.pkl"] loadAlways
        = [("AAPL", ⟨[], [], []⟩)]
    ∧ "AAPL.pkl.pkl".dropRight 4 = "AAPL.pkl"
    ∧ ("AAPL" : String) ≠ "AAPL.pkl" := by
  refine ⟨rfl, rfl, by decide⟩

/-! ### The FormatResolver (read_and_unpack_ticker_pickle,
dropbox_utils.py lines 103-153): claims C2 and C8

A decoded structured value (the result of `json.loads` or of
`ast.literal_eval`). -/
inductive JVal where
  | jNum : Int → JVal
  | jStr : String → JVal
  | jBool : Bool → JVal
  | jNull : JVal
  | jNan : JVal
  | jList : List JVal → JVal
  | jDict : List (JVal × JVal) → JVal

mutual
/-- A parsed Python expression (the AST that `ast.parse` hands to
`ast.literal_eval`): constants, names, calls, attribute access, unary
minus, list/tuple/dict displays. -/
inductive PyExpr where
  | const : JVal → PyExpr
  | name : String → PyExpr
  | call : PyExpr → PyArgs → PyExpr
  | attrE : PyExpr → String → PyExpr
  | unNeg : PyExpr → PyExpr
  | listE : PyArgs → PyExpr
  | tupleE : PyArgs → PyExpr
  | dictE : PyPairs → PyExpr
/-- A list of argument / element expressions. -/
inductive PyArgs where
  | anil : PyArgs
  | acons : PyExpr → PyArgs → PyArgs
/-- A list of key/value expression pairs. -/
inductive PyPairs where
  | pnil : PyPairs
  | pcons : PyExpr → PyExpr → PyPairs → PyPairs
end

mutual
/-- `ast.literal_eval`: evaluates constants, containers of literals and
a single unary minus on a numeric constant; every name, call or
attribute access makes it raise (here: `none`). -/
def litEval : PyExpr → Option JVal
  | .const v => some v
  | .name _ => none
  | .call _ _ => none
  | .attrE _ _ => none
  | .unNeg e =>
      match e with
      | .const (.jNum n) => some (.jNum (-n))
      | _ => none
  | .listE es => (litEvalArgs es).map JVal.jList
  | .tupleE es => (litEvalArgs es).map JVal.jList
  | .dictE ps => (litEvalPairs ps).map JVal.jDict
/-- Element-wise literal evaluation of a display. -/
def litEvalArgs : PyArgs → Option (List JVal)
  | .anil => some []
  | .acons e es =>
      match litEval e, litEvalArgs es with
      | some v, some vs => some (v :: vs)
      | _, _ => none
/-- Pair-wise literal evaluation of a dict display. -/
def litEvalPairs : PyPairs → Option (List (JVal × JVal))
  | .pnil => some []
  | .pcons kk vv ps =>
      match litEval kk, litEval vv, litEvalPairs ps with
      | some kv, some vv2, some rest => some ((kv, vv2) :: rest)
      | _, _, _ => none
end

mutual
/-- An expression is safe when it contains no call, no attribute access
and no name anywhere. -/
def exprSafe : PyExpr → Bool
  | .const _ => true
  | .name _ => false
  | .call _ _ => false
  | .attrE _ _ => false
  | .unNeg e => exprSafe e
  | .listE es => argsSafe es
  | .tupleE es => argsSafe es
  | .dictE ps => pairsSafe ps
/-- Element-wise safety. -/
def argsSafe : PyArgs → Bool
  | .anil => true
  | .acons e es => exprSafe e && argsSafe es
/-- Pair-wise safety. -/
def pairsSafe : PyPairs → Bool
  | .pnil => true
  | .pcons kk vv ps => exprSafe kk && exprSafe vv && pairsSafe ps
end

mutual
theorem litEval_safe : ∀ (e : PyExpr) (v : JVal),
    litEval e = some v → exprSafe e = true
  | .const _, _, _ => rfl
  | .name _, _, h => by simp [litEval] at h
  | .call _ _, _, h => by simp [litEval] at h
  | .attrE _ _, _, h => by simp [litEval] at h
  | .unNeg e, _, h => by
      cases e with
      | const j => exact rfl
      | name s => simp [litEval] at h
      | call f a => simp [litEval] at h
      | attrE f s => simp [litEval] at h
      | unNeg e2 => simp [litEval] at h
      | listE es => simp [litEval] at h
      | tupleE es => simp [litEval] at h
      | dictE ps => simp [litEval] at h
  | .listE es, v, h => by
      simp only [litEval] at h
      cases hh : litEvalArgs es with
      | none => rw [hh] at h; exact absurd h (by simp)
      | some vs =>
          show argsSafe es = true
          exact litEvalArgs_safe es vs hh
  | .tupleE es, v, h => by
      simp only [litEval] at h
      cases hh : litEvalArgs es with
      | none => rw [hh] at h; exact absurd h (by simp)
      | some vs =>
          show argsSafe es = true
          exact litEvalArgs_safe es vs hh
  | .dictE ps, v, h => by
      simp only [litEval] at h
      cases hh : litEvalPairs ps with
      | none => rw [hh] at h; exact absurd h (by simp)
      | some vs =>
          show pairsSafe ps = true
          exact litEvalPairs_safe ps vs hh

theorem litEvalArgs_safe : ∀ (es : PyArgs) (vs : List JVal),
    litEvalArgs es = some vs → argsSafe es = true
  | .anil, _, _ => rfl
  | .acons e es, vs, h => by
      cases he : litEval e with
      | none => simp [litEvalArgs, he] at h
      | some v =>
          cases hes : litEvalArgs es with
          | none => simp [litEvalArgs, he, hes] at h
          | some vs2 =>
              show (exprSafe e && argsSafe es) = true
              rw [litEval_safe e v he, litEvalArgs_safe es vs2 hes]
              rfl

theorem litEvalPairs_safe : ∀ (ps : PyPairs) (vs : List (JVal × JVal)),
    litEvalPairs ps = some vs → pairsSafe ps = true
  | .pnil, _, _ => rfl
  | .pcons kk vv ps, vs, h => by
      cases hk : litEval kk with
      | none => simp [litEvalPairs, hk] at h
      | some kv =>
          cases hv : litEval vv with
          | none => simp [litEvalPairs, hk, hv] at h
          | some vv2 =>
              cases hps : litEvalPairs ps with
              | none => simp [litEvalPairs, hk, hv, hps] at h
              | some rest =>
                  show (exprSafe kk && exprSafe vv && pairsSafe ps) = true
                  rw [litEval_safe kk kv hk, litEval_safe vv vv2 hv,
                    litEvalPairs_safe ps rest hps]
                  rfl
end

/-- The record of a stored structured string, modelled by the two ways
the code may parse it: the strict JSON parse (`json.loads`) and the
Python AST parse (`ast.parse`, the front half of `ast.literal_eval`). -/
structure StrModel where
  jsonParse : Option JVal
  astParse : Option PyExpr

/-- The cell found at `df.loc[0, "plot_dict"]`: a string, an
already-materialized dict, or something else (with its type tag). -/
inductive PCell where
  | pStr : StrModel → PCell
  | pDict : List (JVal × JVal) → PCell
  | pOther : String → PCell

/-- A stored one-row table: column labels and the cells of row 0. -/
structure RFrame where
  cols : List String
  row0 : List PCell

/-- The decoded pickle payload: a DataFrame, a bare dict, or another
object carrying its type tag. -/
inductive RawPayload where
  | frame : RFrame → RawPayload
  | dictP : List (JVal × JVal) → RawPayload
  | other : String → RawPayload

/-- The resolver output: a table built from structured data (cases 1
and 2) or the input frame passed through unchanged (case 3). -/
inductive Unpacked where
  | unpackedFrom : JVal → Unpacked
  | passthrough : RFrame → Unpacked

/-- Decode failure: the RuntimeError of a failed case-1 unpack, or the
final TypeError carrying the offending payload type. -/
inductive DecErr where
  | unpackFailed : String → DecErr
  | unexpectedType : String → DecErr

/-- Decoding of the embedded structured string: strict JSON first, then
one fallback literal evaluation of the parsed AST
(dropbox_utils.py lines 123-128). -/
def decodeEmbedded (m : StrModel) : Option JVal :=
  match m.jsonParse with
  | some v => some v
  | none =>
      match m.astParse with
      | some e => litEval e
      | none => none

/-- Case 1 of the resolver: unpack the plot_dict cell (lines 120-139).
A string cell is decoded with `decodeEmbedded`; a dict cell is used
directly; anything else (and a missing row 0) raises, wrapped into the
RuntimeError of the surrounding try. -/
def case1Decode (cell : Option PCell) : Except DecErr Unpacked :=
  match cell with
  | some (.pStr m) =>
      match decodeEmbedded m with
      | some v => .ok (.unpackedFrom v)
      | none => .error (.unpackFailed "plot_dict parse failed")
  | some (.pDict kv) => .ok (.unpackedFrom (.jDict kv))
  | some (.pOther tag) =>
      .error (.unpackFailed ("Unexpected plot_dict type: " ++ tag))
  | none => .error (.unpackFailed "row 0 missing")

/-- The FormatResolver (lines 103-153): case 1 whenever the payload is
a DataFrame carrying the "plot_dict" marker column, case 2 for a bare
dict, case 3 (pass-through) for any other DataFrame, and a TypeError
carrying the type tag otherwise. -/
def read_and_unpack_ticker_pickle (p : RawPayload) : Except DecErr Unpacked :=
  match p with
  | .frame f =>
      match findCol f.cols "plot_dict" with
      | some j => case1Decode f.row0[j]?
      | none => .ok (.passthrough f)
  | .dictP kv => .ok (.unpackedFrom (.jDict kv))
  | .other tag => .error (.unexpectedType tag)

/-- The fallback branch succeeded on a safe literal expression: no JSON
parse, and the AST parse evaluated by the restricted literal evaluator
contains neither a call nor an attribute access nor any name. -/
def fallbackLiteralSafe (m : StrModel) (v : JVal) : Prop :=
  m.jsonParse = none ∧
  match m.astParse with
  | some e => litEval e = some v ∧ exprSafe e = true
  | none => False

/-- C2: every successful decode of an embedded structured string in a
one-row payload comes either from the strict JSON parser, or — only
when that parser failed — from the single fallback literal evaluator,
whose accepted expression provably contains no function call, no
attribute access and no name; no decoding path evaluates the string
with an unrestricted expression evaluator. -/
theorem plot_dict_decode_safe (f : RFrame) (j : Nat) (m : StrModel) (v : JVal)
    (hc : findCol f.cols "plot_dict" = some j)
    (hcell : f.row0[j]? = some (PCell.pStr m))
    (hok : read_and_unpack_ticker_pickle (.frame f) = .ok (.unpackedFrom v)) :
    m.jsonParse = some v ∨ fallbackLiteralSafe m v := by
  have h1 : read_and_unpack_ticker_pickle (.frame f)
      = case1Decode f.row0[j]? := by
    show (match findCol f.cols "plot_dict" with
      | some j => case1Decode f.row0[j]?
      | none => (.ok (.passthrough f) : Except DecErr Unpacked))
        = case1Decode f.row0[j]?
    rw [hc]
  rw [h1, hcell] at hok
  have h2 : (match decodeEmbedded m with
      | some w => (.ok (.unpackedFrom w) : Except DecErr Unpacked)
      | none => .error (.unpackFailed "plot_dict parse failed"))
      = .ok (.unpackedFrom v) := hok
  cases hd : decodeEmbedded m with
  | none => rw [hd] at h2; exact absurd h2 (by simp)
  | some w =>
    rw [hd] at h2
    have hwv : w = v := by simpa using h2
    subst hwv
    unfold decodeEmbedded at hd
    cases hj : m.jsonParse with
    | some u =>
      rw [hj] at hd
      left
      have hd3 : u = w := by simpa using hd
      rw [hd3]
    | none =>
      rw [hj] at hd
      right
      cases ha : m.astParse with
      | none =>
        rw [ha] at hd
        exact absurd hd (by simp)
      | some e =>
        rw [ha] at hd
        have hd2 : litEval e = some w := hd
        refine ⟨hj, ?_⟩
        rw [ha]
        exact ⟨hd2, litEval_safe e w hd2⟩

/-- The string model of a payload whose JSON parse fails and whose AST
parse yields the empty dict display. -/
def mFallback : StrModel := ⟨none, some (.dictE .pnil)⟩

/-- A one-row frame whose plot_dict cell holds that string. -/
def fFallback : RFrame := ⟨["plot_dict"], [.pStr mFallback]⟩

/-- Witness for the C2 theorem at a concrete payload. -/
theorem plot_dict_decode_safe_witness :
    mFallback.jsonParse = some (JVal.jDict [])
    ∨ fallbackLiteralSafe mFallback (JVal.jDict []) :=
  plot_dict_decode_safe fFallback 0 mFallback (JVal.jDict []) rfl rfl rfl

theorem case1Decode_no_passthrough (cell : Option PCell) (g : RFrame) :
    case1Decode cell ≠ .ok (.passthrough g) := by
  intro h
  cases cell with
  | none => exact absurd h (by simp [case1Decode])
  | some c =>
    cases c with
    | pStr m =>
      have h2 : (match decodeEmbedded m with
          | some w => (.ok (.unpackedFrom w) : Except DecErr Unpacked)
          | none => .error (.unpackFailed "plot_dict parse failed"))
          = .ok (.passthrough g) := h
      cases hd : decodeEmbedded m with
      | none => rw [hd] at h2; exact absurd h2 (by simp)
      | some w =>
        rw [hd] at h2
        injection h2 with h3
        exact Unpacked.noConfusion h3
    | pDict kv =>
      have h2 : (.ok (.unpackedFrom (.jDict kv)) : Except DecErr Unpacked)
          = .ok (.passthrough g) := h
      injection h2 with h3
      exact Unpacked.noConfusion h3
    | pOther tag => exact absurd h (by simp [case1Decode])

/-- C8: the three shape checks are applied in their fixed priority
order — a one-row table carrying the "plot_dict" marker field is always
decoded through the embedded-structured-data branch (case 1) and never
through the tabular pass-through branch (case 3), even though it is
also a tabular object; a frame without the marker passes through
unchanged; a bare dict becomes a built table; and a payload matching
none of the three shapes fails with a decode error carrying the
offending type tag. -/
theorem unpack_priority (f f2 : RFrame) (kv : List (JVal × JVal))
    (tag : String)
    (hmem : "plot_dict" ∈ f.cols) (hnot : "plot_dict" ∉ f2.cols) :
    (∀ g : RFrame,
        read_and_unpack_ticker_pickle (.frame f) ≠ .ok (.passthrough g))
    ∧ read_and_unpack_ticker_pickle (.frame f2) = .ok (.passthrough f2)
    ∧ read_and_unpack_ticker_pickle (.dictP kv) = .ok (.unpackedFrom (.jDict kv))
    ∧ read_and_unpack_ticker_pickle (.other tag)
        = .error (.unexpectedType tag) := by
  refine ⟨?_, ?_, rfl, rfl⟩
  · intro g hok
    obtain ⟨j, hj⟩ := findCol_mem f.cols "plot_dict" hmem
    have h1 : read_and_unpack_ticker_pickle (.frame f)
        = case1Decode f.row0[j]? := by
      show (match findCol f.cols "plot_dict" with
        | some j => case1Decode f.row0[j]?
        | none => (.ok (.passthrough f) : Except DecErr Unpacked))
          = case1Decode f.row0[j]?
      rw [hj]
    rw [h1] at hok
    exact case1Decode_no_passthrough f.row0[j]? g hok
  · show (match findCol f2.cols "plot_dict" with
      | some j => case1Decode f2.row0[j]?
      | none => (.ok (.passthrough f2) : Except DecErr Unpacked))
        = .ok (.passthrough f2)
    rw [(findCol_eq_none f2.cols "plot_dict").mpr hnot]

/-- A frame without the plot_dict marker column. -/
def fPlain : RFrame := ⟨["Open", "Close"], []⟩

/-- Witness for the C8 theorem at concrete payloads. -/
theorem unpack_priority_witness :
    read_and_unpack_ticker_pickle (.frame fPlain) = .ok (.passthrough fPlain)
    ∧ read_and_unpack_ticker_pickle (.other "int")
        = .error (.unexpectedType "int") :=
  ⟨(unpack_priority fFallback fPlain [] "int" (by decide) (by decide)).2.1,
   (unpack_priority fFallback fPlain [] "int" (by decide) (by decide)).2.2.2⟩

end TradingDash
